import Mathlib

/-!
Verification of the stride backend's resource lifecycle orchestrator and
generic data-access layer, shallowly embedded from the Go source
(`internal/resources`, `internal/repository`, `internal/service`).

Concurrency is modelled by quantifying over the arrival order of the
per-resource task results: the Go orchestrator launches one goroutine per
resource and collects exactly `len(resources)` results from a buffered
channel, so the collected result list is some permutation of the list of
per-resource outcomes.
-/

namespace Stride

/-! ### Resource lifecycle orchestrator (`internal/resources/resources.go`)

`resourceInitResult` carries the resource name and the outcome of its
`Connect`/`Close` call. A Go `error` is modelled as `Option String` (its
message), `nil` as `none`.
-/

structure InitResult where
  name : String
  err : Option String
  deriving DecidableEq, Repr

/-- The error-aggregation part of the collection loop in `InitResources`:
for each received result with a non-nil error, the string
`name ++ ": " ++ err.Error()` is appended to `initErrors`, in arrival order. -/
def initErrors (results : List InitResult) : List String :=
  results.filterMap fun r => r.err.map fun e => r.name ++ ": " ++ e

/-- The message-joining loop of `InitResources`: `errorMsg += err` for the
first entry, `errorMsg += "; " + err` for every later one. -/
def joinErrors : List String → String
  | [] => ""
  | e :: es => es.foldl (fun acc x => acc ++ "; " ++ x) e

/-- `InitResources` (collection and aggregation): given the results received
from the channel (in arrival order), return `nil` when none carries an error,
otherwise a single combined error message listing every failure. -/
def initResources (results : List InitResult) : Option String :=
  let errs := initErrors results
  if errs.isEmpty then none
  else some ("failed to initialize resources: " ++ joinErrors errs)

/-- `CloseResources` (collection loop): counts successful and failed `Close`
outcomes; the Go function returns nothing, so no error value appears in the
codomain — failures are only counted (and logged). -/
def closeResources (results : List InitResult) : Nat × Nat :=
  results.foldl
    (fun c r => match r.err with
      | some _ => (c.1, c.2 + 1)
      | none => (c.1 + 1, c.2))
    (0, 0)

theorem joinErrors_mem_infix (l : List String) (x : String) (hx : x ∈ l) :
    ∃ p q : List Char, (joinErrors l).data = p ++ x.data ++ q := by
  have fold_extend : ∀ (es : List String) (acc : String),
      ∃ q : List Char, (es.foldl (fun a y => a ++ "; " ++ y) acc).data = acc.data ++ q := by
    intro es
    induction es with
    | nil => intro acc; exact ⟨[], by simp⟩
    | cons y ys ih =>
      intro acc
      obtain ⟨q, hq⟩ := ih (acc ++ "; " ++ y)
      refine ⟨("; " ++ y).data ++ q, ?_⟩
      simp only [List.foldl_cons, hq]
      simp [String.data_append]
  induction l with
  | nil => cases hx
  | cons e es ih =>
    rcases List.mem_cons.mp hx with h | h
    · subst h
      obtain ⟨q, hq⟩ := fold_extend es x
      exact ⟨[], q, by simpa [joinErrors] using hq⟩
    · -- x sits somewhere in the tail; peel off elements of the tail until it is
      -- the next one folded in, then use fold_extend for the rest.
      clear ih
      have : ∀ (ys : List String) (acc : String), x ∈ ys →
          ∃ p q : List Char,
            (ys.foldl (fun a y => a ++ "; " ++ y) acc).data = p ++ x.data ++ q := by
        intro ys
        induction ys with
        | nil => intro acc hmem; cases hmem
        | cons y ys ih2 =>
          intro acc hmem
          rcases List.mem_cons.mp hmem with h2 | h2
          · subst h2
            obtain ⟨q, hq⟩ := fold_extend ys (acc ++ "; " ++ x)
            refine ⟨acc.data ++ ("; ").data, q, ?_⟩
            simp only [List.foldl_cons, hq]
            simp [String.data_append]
          · exact ih2 (acc ++ "; " ++ y) h2
      simpa [joinErrors] using this es e h

theorem initErrors_nil_iff (results : List InitResult) :
    initErrors results = [] ↔ ∀ r ∈ results, r.err = none := by
  unfold initErrors
  rw [List.filterMap_eq_nil_iff]
  constructor
  · intro h r hr
    have := h r hr
    cases herr : r.err with
    | none => rfl
    | some e => rw [herr] at this; simp at this
  · intro h r hr
    rw [h r hr]
    rfl

/-- C1: `InitResources` launches one `Connect` task per resource and collects
exactly one result per resource (modelled by the received list being a
permutation of the per-resource outcome list — no early exit). It returns
`nil` exactly when every `Connect` succeeded, and otherwise a single combined
error whose message contains `name ++ ": " ++ err` for every failing
resource. -/
theorem initResources_aggregates_failures
    (outcomes arrival : List InitResult) (hperm : arrival.Perm outcomes) :
    (initResources arrival = none ↔ ∀ r ∈ outcomes, r.err = none) ∧
    (∀ r ∈ outcomes, ∀ e, r.err = some e →
      ∃ msg, initResources arrival = some msg ∧
        ∃ p q : List Char, msg.data = p ++ (r.name ++ ": " ++ e).data ++ q) := by
  have hpermErr : (initErrors arrival).Perm (initErrors outcomes) :=
    hperm.filterMap _
  constructor
  · constructor
    · intro h
      by_contra hc
      push_neg at hc
      obtain ⟨r, hr, herr⟩ := hc
      have hne : initErrors outcomes ≠ [] := by
        intro hnil
        exact herr ((initErrors_nil_iff outcomes).mp hnil r hr)
      have hne' : initErrors arrival ≠ [] := by
        intro hnil
        refine hne (List.Perm.eq_nil ?_)
        rw [← hnil]
        exact hpermErr.symm
      unfold initResources at h
      rw [if_neg (by simpa [List.isEmpty_iff] using hne')] at h
      exact Option.noConfusion h
    · intro h
      have : initErrors outcomes = [] := (initErrors_nil_iff outcomes).mpr h
      have harr : initErrors arrival = [] := by
        refine List.Perm.eq_nil ?_
        rw [← this]
        exact hpermErr
      unfold initResources
      rw [if_pos (by simp [harr])]
  · intro r hr e herr
    have hmem : (r.name ++ ": " ++ e) ∈ initErrors outcomes := by
      unfold initErrors
      exact List.mem_filterMap.mpr ⟨r, hr, by rw [herr]; rfl⟩
    have hmem' : (r.name ++ ": " ++ e) ∈ initErrors arrival :=
      hpermErr.symm.subset hmem
    have hne : initErrors arrival ≠ [] := by
      intro hnil
      rw [hnil] at hmem'
      cases hmem'
    refine ⟨"failed to initialize resources: " ++ joinErrors (initErrors arrival), ?_, ?_⟩
    · unfold initResources
      rw [if_neg (by simpa [List.isEmpty_iff] using hne)]
    · obtain ⟨p, q, hpq⟩ := joinErrors_mem_infix _ _ hmem'
      refine ⟨"failed to initialize resources: ".data ++ p, q, ?_⟩
      rw [String.data_append, hpq]
      simp

/-- Witness for C1 at a concrete two-resource input: the results arrive in the
opposite order from the launch order, the database fails and the cache
succeeds; the combined error names the database. -/
theorem initResources_aggregates_failures_witness :
    (initResources [⟨"mock-redis", none⟩, ⟨"mongodb", some "dial refused"⟩] = none ↔
      ∀ r ∈ [InitResult.mk "mongodb" (some "dial refused"), ⟨"mock-redis", none⟩],
        r.err = none) ∧
    (∀ r ∈ [InitResult.mk "mongodb" (some "dial refused"), ⟨"mock-redis", none⟩],
      ∀ e, r.err = some e →
        ∃ msg,
          initResources [⟨"mock-redis", none⟩, ⟨"mongodb", some "dial refused"⟩] = some msg ∧
          ∃ p q : List Char, msg.data = p ++ (r.name ++ ": " ++ e).data ++ q) :=
  initResources_aggregates_failures
    [⟨"mongodb", some "dial refused"⟩, ⟨"mock-redis", none⟩]
    [⟨"mock-redis", none⟩, ⟨"mongodb", some "dial refused"⟩]
    (by decide)

/-- C7: `CloseResources` collects one `Close` outcome per resource (the
received list is a permutation of the outcome list), counts every success and
every failure — so no failure aborts the sweep — and its result carries no
error value at all: failures only increment the failure counter. -/
theorem closeResources_best_effort
    (outcomes arrival : List InitResult) (hperm : arrival.Perm outcomes) :
    closeResources arrival =
      (outcomes.countP (fun r => r.err.isNone),
       outcomes.countP (fun r => r.err.isSome)) ∧
    (closeResources arrival).1 + (closeResources arrival).2 = outcomes.length := by
  have key : ∀ (l : List InitResult),
      closeResources l = (l.countP (fun r => r.err.isNone), l.countP (fun r => r.err.isSome)) := by
    intro l
    have gen : ∀ (l : List InitResult) (a b : Nat),
        l.foldl (fun c r => match r.err with
          | some _ => (c.1, c.2 + 1)
          | none => (c.1 + 1, c.2)) (a, b) =
        (a + l.countP (fun r => r.err.isNone), b + l.countP (fun r => r.err.isSome)) := by
      intro l
      induction l with
      | nil => intro a b; simp
      | cons r rs ih =>
        intro a b
        cases herr : r.err with
        | none =>
          simp only [List.foldl_cons, herr, ih]
          rw [List.countP_cons, List.countP_cons]
          simp [herr, Nat.add_assoc, Nat.add_comm 1]
        | some e =>
          simp only [List.foldl_cons, herr, ih]
          rw [List.countP_cons, List.countP_cons]
          simp [herr, Nat.add_assoc, Nat.add_comm 1]
    simpa using gen l 0 0
  have hc1 : arrival.countP (fun r => r.err.isNone) = outcomes.countP (fun r => r.err.isNone) :=
    hperm.countP_eq _
  have hc2 : arrival.countP (fun r => r.err.isSome) = outcomes.countP (fun r => r.err.isSome) :=
    hperm.countP_eq _
  constructor
  · rw [key, hc1, hc2]
  · rw [key, hc1, hc2]
    have := List.length_eq_countP_add_countP (fun r : InitResult => r.err.isNone) outcomes
    rw [this]
    congr 1
    apply List.countP_congr
    intro r _
    cases r.err <;> simp

/-- Witness for C7: one resource fails to close, one succeeds; both outcomes
are counted and the sweep completes. -/
theorem closeResources_best_effort_witness :
    closeResources [⟨"mock-redis", none⟩, ⟨"mongodb", some "already closed"⟩] =
      ([InitResult.mk "mongodb" (some "already closed"), ⟨"mock-redis", none⟩].countP
        (fun r => r.err.isNone),
       [InitResult.mk "mongodb" (some "already closed"), ⟨"mock-redis", none⟩].countP
        (fun r => r.err.isSome)) ∧
    (closeResources [⟨"mock-redis", none⟩, ⟨"mongodb", some "already closed"⟩]).1 +
      (closeResources [⟨"mock-redis", none⟩, ⟨"mongodb", some "already closed"⟩]).2 =
      [InitResult.mk "mongodb" (some "already closed"), ⟨"mock-redis", none⟩].length :=
  closeResources_best_effort
    [⟨"mongodb", some "already closed"⟩, ⟨"mock-redis", none⟩]
    [⟨"mock-redis", none⟩, ⟨"mongodb", some "already closed"⟩]
    (by decide)

/-! ### Generic repository core (`internal/repository/base_repository.go`)

The shared sentinel errors, the dual ID encoding (`primitive.ObjectID` versus
arbitrary string), and the CRUD primitives of `BaseRepository[T]`. A MongoDB
collection is modelled as a `List T` together with an `idFn : T → BsonId`
giving each document's `_id`; `FindOne`/`DeleteOne` act on the first matching
document, as the driver does. Storage faults (network errors, decode errors)
are outside the state model, so the driver-fault branches of the Go code do
not arise. -/

inductive RepoErr where
  | notFound
  | alreadyExists
  | invalidID
  | invalidInput
  deriving DecidableEq, Repr

def isHexChar (c : Char) : Bool :=
  (decide ('0' ≤ c) && decide (c ≤ '9')) ||
  (decide ('a' ≤ c) && decide (c ≤ 'f')) ||
  (decide ('A' ≤ c) && decide (c ≤ 'F'))

/-- `primitive.ObjectIDFromHex`: succeeds exactly on 24-character hex strings.
The resulting ObjectID is identified with its canonical (lowercase) hex
rendering, matching `ObjectID.Hex()`. -/
def objectIDFromHex (s : String) : Option String :=
  if s.data.length = 24 ∧ s.data.all isHexChar = true then
    some (String.mk (s.data.map Char.toLower))
  else none

/-- A document `_id`: either a native ObjectID (canonical hex) or an arbitrary
string, mirroring the two filter forms `bson.M{"_id": objectID}` and
`bson.M{"_id": id}`. -/
inductive BsonId where
  | oid (hex : String)
  | str (s : String)
  deriving DecidableEq, Repr

/-- The filter chosen by `FindByID`/`UpdateByID`/`DeleteByID`: parse the id as
an ObjectID; on parse error fall back to the raw string. -/
def idFilter (id : String) : BsonId :=
  match objectIDFromHex id with
  | some h => .oid h
  | none => .str id

section BaseRepository

variable {T : Type}

/-- `BaseRepository.FindByID`: build the id filter, then `FindOne`;
`mongo.ErrNoDocuments` becomes `ErrNotFound`. -/
def findByID (idFn : T → BsonId) (coll : List T) (id : String) : Except RepoErr T :=
  match coll.find? (fun t => idFn t == idFilter id) with
  | some d => .ok d
  | none => .error .notFound

/-- `BaseRepository.DeleteByID`: delete by the id filter; `DeletedCount == 0`
becomes `ErrNotFound`. Returns the outcome and the collection afterwards. -/
def deleteByID (idFn : T → BsonId) (coll : List T) (id : String) :
    Except RepoErr Unit × List T :=
  if coll.any (fun t => idFn t == idFilter id) then
    (.ok (), coll.eraseP (fun t => idFn t == idFilter id))
  else
    (.error .notFound, coll)

/-- `BaseRepository.DeleteOne`: same semantics for an arbitrary filter. -/
def deleteOne (coll : List T) (p : T → Bool) : Except RepoErr Unit × List T :=
  if coll.any p then (.ok (), coll.eraseP p)
  else (.error .notFound, coll)

/-- `BaseRepository.DeleteMany`: deletes every match and returns
`DeletedCount`; a zero count is not an error. -/
def deleteMany (coll : List T) (p : T → Bool) : Except RepoErr Nat × List T :=
  (.ok (coll.countP p), coll.filter (fun t => !(p t)))

theorem eraseP_no_match_left (idFn : T → BsonId) (b : BsonId) :
    ∀ (l : List T), (l.map idFn).Nodup → l.any (fun t => idFn t == b) = true →
      ∀ t ∈ l.eraseP (fun t => idFn t == b), (idFn t == b) = false := by
  intro l
  induction l with
  | nil => intro _ h; simp at h
  | cons x xs ih =>
    intro hnd hany t ht
    rw [List.map_cons, List.nodup_cons] at hnd
    rw [List.eraseP_cons] at ht
    cases hx : (idFn x == b) with
    | true =>
      simp only [hx, cond_true] at ht
      have hxb : idFn x = b := by simpa using hx
      cases hq : (idFn t == b) with
      | false => rfl
      | true =>
        exfalso
        have htb : idFn t = b := by simpa using hq
        exact hnd.1 (by
          rw [hxb, ← htb]
          exact List.mem_map_of_mem idFn ht)
    | false =>
      simp only [hx, cond_false] at ht
      have hany' : xs.any (fun t => idFn t == b) = true := by
        rcases List.any_eq_true.mp hany with ⟨u, hu, hub⟩
        rcases List.mem_cons.mp hu with h' | h'
        · subst h'
          simp only [hx] at hub
          exact Bool.noConfusion hub
        · exact List.any_eq_true.mpr ⟨u, h', hub⟩
      rcases List.mem_cons.mp ht with h' | h'
      · subst h'; exact hx
      · exact ih hnd.2 hany' t h'

/-- C4: `FindByID` looks up by the parsed ObjectID when the id parses, and
otherwise by the literal string `_id`; it never returns `ErrInvalidID`, and it
returns `ErrNotFound` exactly when no document carries the chosen `_id`. -/
theorem findByID_id_fallback (idFn : T → BsonId) (coll : List T) (id : String) :
    (∀ h, objectIDFromHex id = some h →
      ((findByID idFn coll id = .error .notFound ↔ ∀ t ∈ coll, idFn t ≠ .oid h) ∧
       (∀ d, findByID idFn coll id = .ok d → d ∈ coll ∧ idFn d = .oid h))) ∧
    (objectIDFromHex id = none →
      ((findByID idFn coll id = .error .notFound ↔ ∀ t ∈ coll, idFn t ≠ .str id) ∧
       (∀ d, findByID idFn coll id = .ok d → d ∈ coll ∧ idFn d = .str id))) ∧
    findByID idFn coll id ≠ .error .invalidID := by
  have main : ∀ b, idFilter id = b →
      ((findByID idFn coll id = .error .notFound ↔ ∀ t ∈ coll, idFn t ≠ b) ∧
       (∀ d, findByID idFn coll id = .ok d → d ∈ coll ∧ idFn d = b)) := by
    intro b hb
    constructor
    · constructor
      · intro hnf t ht hc
        unfold findByID at hnf
        rw [hb] at hnf
        cases hf : coll.find? (fun t => idFn t == b) with
        | none =>
          have := List.find?_eq_none.mp hf t ht
          rw [hc] at this
          simp at this
        | some d => rw [hf] at hnf; cases hnf
      · intro hall
        unfold findByID
        rw [hb]
        cases hf : coll.find? (fun t => idFn t == b) with
        | none => rfl
        | some d =>
          exact absurd (by simpa using List.find?_some hf)
            (hall d (List.mem_of_find?_eq_some hf))
    · intro d hd
      unfold findByID at hd
      rw [hb] at hd
      cases hf : coll.find? (fun t => idFn t == b) with
      | none => rw [hf] at hd; cases hd
      | some d' =>
        rw [hf] at hd
        cases hd
        exact ⟨List.mem_of_find?_eq_some hf, by simpa using List.find?_some hf⟩
  refine ⟨?_, ?_, ?_⟩
  · intro h hh
    exact main (.oid h) (by unfold idFilter; rw [hh])
  · intro hh
    exact main (.str id) (by unfold idFilter; rw [hh])
  · unfold findByID
    cases hf : coll.find? (fun t => idFn t == idFilter id) <;> simp

/-- Witness for C4: probing a one-document collection with the malformed
ObjectID `"user-1"` (length 6) reaches the string-fallback branch of the
theorem, and probing with a well-formed but absent ObjectID reaches the
native-lookup branch; the theorem's conclusions are instantiated there. -/
theorem findByID_id_fallback_witness :
    (objectIDFromHex "user-1" = none ∧
      (findByID (fun b : BsonId => b) [BsonId.str "user-1"] "user-1" = .error .notFound ↔
        ∀ t ∈ [BsonId.str "user-1"], t ≠ BsonId.str "user-1")) ∧
    (objectIDFromHex "aaaaaaaaaaaaaaaaaaaaaaaa" = some "aaaaaaaaaaaaaaaaaaaaaaaa" ∧
      findByID (fun b : BsonId => b) [BsonId.str "user-1"] "aaaaaaaaaaaaaaaaaaaaaaaa" =
        .error .notFound) :=
  ⟨⟨by decide,
    ((findByID_id_fallback (fun b : BsonId => b) [BsonId.str "user-1"] "user-1").2.1
      (by decide)).1⟩,
   ⟨by decide,
    (((findByID_id_fallback (fun b : BsonId => b) [BsonId.str "user-1"]
        "aaaaaaaaaaaaaaaaaaaaaaaa").1 "aaaaaaaaaaaaaaaaaaaaaaaa" (by decide)).1).mpr
      (by decide)⟩⟩

/-- C6: `DeleteByID` and `DeleteOne` return `ErrNotFound` exactly when no
document matches (so, with unique `_id`s, deleting the same identifier twice
fails the second time), while `DeleteMany` returns the matched count — zero
included — with no error. -/
theorem delete_notFound_semantics (idFn : T → BsonId) (coll : List T) (id : String)
    (p : T → Bool) :
    ((deleteByID idFn coll id).1 = .error .notFound ↔
      ∀ t ∈ coll, idFn t ≠ idFilter id) ∧
    ((deleteOne coll p).1 = .error .notFound ↔ ∀ t ∈ coll, p t = false) ∧
    ((deleteMany coll p).1 = .ok (coll.countP p) ∧
      ∀ e, (deleteMany coll p).1 ≠ .error e) ∧
    ((coll.map idFn).Nodup → (deleteByID idFn coll id).1 = .ok () →
      (deleteByID idFn (deleteByID idFn coll id).2 id).1 = .error .notFound) := by
  refine ⟨?_, ?_, ⟨rfl, fun e => by simp [deleteMany]⟩, ?_⟩
  · by_cases hany : coll.any (fun t => idFn t == idFilter id) = true
    · constructor
      · intro h
        exfalso
        unfold deleteByID at h
        rw [if_pos hany] at h
        exact absurd h (by simp)
      · intro hall
        exfalso
        rcases List.any_eq_true.mp hany with ⟨t, ht, htb⟩
        exact hall t ht (by simpa using htb)
    · constructor
      · intro _ t ht hc
        exact hany (List.any_eq_true.mpr ⟨t, ht, by simp [hc]⟩)
      · intro _
        unfold deleteByID
        rw [if_neg hany]
  · by_cases hany : coll.any p = true
    · constructor
      · intro h
        exfalso
        unfold deleteOne at h
        rw [if_pos hany] at h
        exact absurd h (by simp)
      · intro hall
        exfalso
        rcases List.any_eq_true.mp hany with ⟨t, ht, htb⟩
        rw [hall t ht] at htb
        cases htb
    · constructor
      · intro _ t ht
        cases hpt : p t with
        | false => rfl
        | true => exact absurd (List.any_eq_true.mpr ⟨t, ht, hpt⟩) hany
      · intro _
        unfold deleteOne
        rw [if_neg hany]
  · intro hnd hok
    have hany : coll.any (fun t => idFn t == idFilter id) = true := by
      by_contra hc
      unfold deleteByID at hok
      rw [if_neg hc] at hok
      exact absurd hok (by simp)
    have hsnd : (deleteByID idFn coll id).2 =
        coll.eraseP (fun t => idFn t == idFilter id) := by
      unfold deleteByID
      rw [if_pos hany]
    have hnomatch :
        ¬ ((coll.eraseP (fun t => idFn t == idFilter id)).any
            (fun t => idFn t == idFilter id) = true) := by
      intro hany'
      rcases List.any_eq_true.mp hany' with ⟨t, ht, htb⟩
      have hfalse := eraseP_no_match_left idFn (idFilter id) coll hnd hany t ht
      rw [htb] at hfalse
      cases hfalse
    rw [hsnd]
    unfold deleteByID
    rw [if_neg hnomatch]

/-- Witness for C6's conditional part: a singleton collection with a unique
string id; the first delete succeeds, the second returns `ErrNotFound`. -/
theorem delete_notFound_semantics_witness :
    ([BsonId.str "user-1"].map (fun b : BsonId => b)).Nodup ∧
    (deleteByID (fun b : BsonId => b) [BsonId.str "user-1"] "user-1").1 = .ok () ∧
    (deleteByID (fun b : BsonId => b)
      (deleteByID (fun b : BsonId => b) [BsonId.str "user-1"] "user-1").2 "user-1").1 =
      .error .notFound :=
  ⟨by decide, rfl,
    (delete_notFound_semantics (fun b : BsonId => b) [BsonId.str "user-1"] "user-1"
      (fun _ => false)).2.2.2 (by decide) rfl⟩

end BaseRepository

/-! ### `BaseRepository.UpdateByID` update-document handling

`bson.M` is modelled as an association list with unique keys (Go map);
values are strings, timestamps (`time.Now()` as a `Nat`), or nested `bson.M`
documents. The `switch` in `UpdateByID` is modelled at its `bson.M` branch,
the one the claim is about. -/

inductive BVal where
  | str (s : String)
  | time (t : Nat)
  | doc (m : List (String × BVal))

/-- Go map indexing `m[k]` (read). -/
def bsonLookup (m : List (String × BVal)) (k : String) : Option BVal :=
  match m with
  | [] => none
  | kv :: rest => if kv.1 = k then some kv.2 else bsonLookup rest k

/-- Go map assignment `m[k] = v`: overwrite the existing binding or add one. -/
def bsonSet (m : List (String × BVal)) (k : String) (v : BVal) :
    List (String × BVal) :=
  if m.any (fun kv => kv.1 == k) then
    m.map (fun kv => if kv.1 = k then (k, v) else kv)
  else m ++ [(k, v)]

/-- `hasOperators`: some top-level key is non-empty and starts with `'$'`. -/
def hasOperators (update : List (String × BVal)) : Bool :=
  update.any fun kv =>
    match kv.1.data with
    | [] => false
    | c :: _ => c == '$'

/-- The `updatedAt` stamping step of `UpdateByID`: if `updateDoc["$set"]` is a
`bson.M`, assign `updatedAt = time.Now()` inside it (in Go this mutates the
inner map that `updateDoc` references). -/
def stampUpdatedAt (updateDoc : List (String × BVal)) (now : Nat) :
    List (String × BVal) :=
  match bsonLookup updateDoc "$set" with
  | some (.doc m) => bsonSet updateDoc "$set" (.doc (bsonSet m "updatedAt" (.time now)))
  | _ => updateDoc

/-- The update document `UpdateByID` hands to `collection.UpdateOne`: wrap a
raw field-map in `$set` unless it already carries an update operator, then
stamp `updatedAt`. -/
def buildUpdateDoc (update : List (String × BVal)) (now : Nat) :
    List (String × BVal) :=
  let updateDoc := if hasOperators update then update else [("$set", BVal.doc update)]
  stampUpdatedAt updateDoc now

/-- `BaseRepository.UpdateByID`: choose the id filter, build the update
document, and report `ErrNotFound` exactly when `MatchedCount == 0`. The
second component is the update document sent to storage (the storage engine's
application of it to the matched document is outside the model). -/
def updateByID {T : Type} (idFn : T → BsonId) (coll : List T) (id : String)
    (update : List (String × BVal)) (now : Nat) :
    Except RepoErr Unit × List (String × BVal) :=
  (if coll.any (fun t => idFn t == idFilter id) then .ok () else .error .notFound,
   buildUpdateDoc update now)

/-- The claim's reading of "always stamps updatedAt": the effective update
document carries a `$set` field-map binding `updatedAt` to the current time. -/
def stampsUpdatedAt (d : List (String × BVal)) (now : Nat) : Bool :=
  match bsonLookup d "$set" with
  | some (.doc m) =>
      m.any fun kv =>
        kv.1 == "updatedAt" &&
          match kv.2 with
          | .time t => t == now
          | _ => false
  | _ => false

/-- C2 counterexample: an operator-form update with no `$set` key — here
`{"$unset": {"email": ""}}` — is passed through unmodified, so `updatedAt` is
NOT stamped anywhere in the effective update, refuting "the document's
updatedAt field is always stamped with the current time". -/
theorem updateByID_stamp_counterexample :
    hasOperators [("$unset", BVal.doc [("email", BVal.str "")])] = true ∧
    (updateByID (fun b : BsonId => b) [BsonId.str "user-1"] "user-1"
        [("$unset", BVal.doc [("email", BVal.str "")])] 5).2 =
      [("$unset", BVal.doc [("email", BVal.str "")])] ∧
    stampsUpdatedAt
      ((updateByID (fun b : BsonId => b) [BsonId.str "user-1"] "user-1"
        [("$unset", BVal.doc [("email", BVal.str "")])] 5).2) 5 = false :=
  ⟨rfl, rfl, rfl⟩

/-- C2 as amended: a raw field-map is wrapped in `$set` and `updatedAt` is
stamped into it; an operator-form update is passed through, with `updatedAt`
stamped into its top-level `$set` field-map when one exists and not stamped at
all otherwise; `ErrNotFound` is returned exactly when the id matched no
document. -/
theorem updateByID_wrap_and_stamp {T : Type} (idFn : T → BsonId) (coll : List T)
    (id : String) (update : List (String × BVal)) (now : Nat) :
    (hasOperators update = false →
      (updateByID idFn coll id update now).2 =
        [("$set", BVal.doc (bsonSet update "updatedAt" (.time now)))]) ∧
    (hasOperators update = true → bsonLookup update "$set" = none →
      (updateByID idFn coll id update now).2 = update) ∧
    (hasOperators update = true → ∀ m, bsonLookup update "$set" = some (.doc m) →
      (updateByID idFn coll id update now).2 =
        bsonSet update "$set" (.doc (bsonSet m "updatedAt" (.time now)))) ∧
    ((updateByID idFn coll id update now).1 = .error .notFound ↔
      ∀ t ∈ coll, idFn t ≠ idFilter id) := by
  refine ⟨?_, ?_, ?_, ?_⟩
  · intro hop
    show buildUpdateDoc update now = _
    unfold buildUpdateDoc
    rw [if_neg (by simp [hop])]
    unfold stampUpdatedAt
    simp [bsonLookup, bsonSet]
  · intro hop hset
    show buildUpdateDoc update now = _
    unfold buildUpdateDoc
    rw [if_pos hop]
    show stampUpdatedAt update now = _
    unfold stampUpdatedAt
    rw [hset]
  · intro hop m hset
    show buildUpdateDoc update now = _
    unfold buildUpdateDoc
    rw [if_pos hop]
    show stampUpdatedAt update now = _
    unfold stampUpdatedAt
    rw [hset]
  · show (if coll.any (fun t => idFn t == idFilter id) then
        (Except.ok () : Except RepoErr Unit) else .error .notFound) = .error .notFound ↔ _
    by_cases hany : coll.any (fun t => idFn t == idFilter id) = true
    · rw [if_pos hany]
      constructor
      · intro h; exact absurd h (by simp)
      · intro hall
        exfalso
        rcases List.any_eq_true.mp hany with ⟨t, ht, htb⟩
        exact hall t ht (by simpa using htb)
    · rw [if_neg hany]
      constructor
      · intro _ t ht hc
        exact hany (List.any_eq_true.mpr ⟨t, ht, by simp [hc]⟩)
      · intro _; rfl

/-- Witness for C2 (amended): the raw field-map `{"name": "Ann2"}` has no
operator key, gets wrapped in `$set`, and `updatedAt` is stamped inside. -/
theorem updateByID_wrap_and_stamp_witness :
    hasOperators [("name", BVal.str "Ann2")] = false ∧
    (updateByID (fun b : BsonId => b) [BsonId.str "user-1"] "user-1"
        [("name", BVal.str "Ann2")] 7).2 =
      [("$set", BVal.doc (bsonSet [("name", BVal.str "Ann2")] "updatedAt" (.time 7)))] :=
  ⟨rfl,
    (updateByID_wrap_and_stamp (fun b : BsonId => b) [BsonId.str "user-1"] "user-1"
      [("name", BVal.str "Ann2")] 7).1 rfl⟩

/-! ### Domain entity, mock repository and service layer
(`internal/domain`, `internal/repository/mock_user_repository.go`,
`internal/service/user_service.go`)

`domain.User`; timestamps as `Nat`. The mock repository's map
`map[string]*domain.User` is modelled here at value level (an association
list with unique keys); the pointer/aliasing behaviour is modelled separately
below for C3. -/

structure User where
  ID : String
  Name : String
  Email : String
  CreatedAt : Nat
  UpdatedAt : Nat
  deriving DecidableEq, Repr

/-- The error values crossing the repository/service boundary:
`repo e` are the repository sentinels (the mock's `ErrUserExists` and
`ErrUserNotFound` alias `ErrAlreadyExists` and `ErrNotFound`);
`userNotFound`/`invalidUser` are the service package's own sentinels. -/
inductive AppErr where
  | repo (e : RepoErr)
  | userNotFound
  | invalidUser
  deriving DecidableEq, Repr

def assocLookup {α : Type} (m : List (String × α)) (k : String) : Option α :=
  match m with
  | [] => none
  | kv :: rest => if kv.1 = k then some kv.2 else assocLookup rest k

def assocSet {α : Type} (m : List (String × α)) (k : String) (v : α) :
    List (String × α) :=
  if m.any (fun kv => kv.1 == k) then
    m.map (fun kv => if kv.1 = k then (k, v) else kv)
  else m ++ [(k, v)]

def assocErase {α : Type} (m : List (String × α)) (k : String) :
    List (String × α) :=
  match m with
  | [] => []
  | kv :: rest => if kv.1 = k then assocErase rest k else kv :: assocErase rest k

/-- The mock repository's map, at value level. -/
abbrev MockUsers := List (String × User)

/-- `MockUserRepository.GetByID`: missing id yields `(nil, nil)`. -/
def mockGetByID (st : MockUsers) (id : String) : Option User × Option AppErr :=
  match assocLookup st id with
  | some u => (some u, none)
  | none => (none, none)

/-- `MockUserRepository.List`. -/
def mockList (st : MockUsers) : List User := st.map (·.2)

/-- `MockUserRepository.Create`: reject an already-present ID, else store. -/
def mockCreate (st : MockUsers) (u : User) : Option AppErr × MockUsers :=
  match assocLookup st u.ID with
  | some _ => (some (.repo .alreadyExists), st)
  | none => (none, st ++ [(u.ID, u)])

/-- `MockUserRepository.Update`: reject a missing ID, else rebind it. -/
def mockUpdate (st : MockUsers) (u : User) : Option AppErr × MockUsers :=
  match assocLookup st u.ID with
  | none => (some (.repo .notFound), st)
  | some _ => (none, assocSet st u.ID u)

/-- `MockUserRepository.Delete`: reject a missing ID, else remove it. -/
def mockDelete (st : MockUsers) (id : String) : Option AppErr × MockUsers :=
  match assocLookup st id with
  | none => (some (.repo .notFound), st)
  | some _ => (none, assocErase st id)

/-- C10: every mock operation that returns an error leaves the map unchanged:
`Create` of a present ID returns `ErrUserExists` (= `ErrAlreadyExists`) and
stores nothing; `Update`/`Delete` of an absent ID return `ErrUserNotFound`
(= `ErrNotFound`) and modify nothing. -/
theorem mock_error_leaves_state (st : MockUsers) (u : User) (id : String) :
    ((assocLookup st u.ID).isSome = true →
      mockCreate st u = (some (.repo .alreadyExists), st)) ∧
    (assocLookup st u.ID = none →
      mockUpdate st u = (some (.repo .notFound), st)) ∧
    (assocLookup st id = none →
      mockDelete st id = (some (.repo .notFound), st)) := by
  refine ⟨?_, ?_, ?_⟩
  · intro hs
    unfold mockCreate
    cases h : assocLookup st u.ID with
    | some v => rfl
    | none => rw [h] at hs; cases hs
  · intro hn
    unfold mockUpdate
    rw [hn]
  · intro hn
    unfold mockDelete
    rw [hn]

/-- Witness for C10: a one-entry map; creating the same ID again fails and
leaves the map as it was, updating/deleting an absent ID likewise. -/
theorem mock_error_leaves_state_witness :
    ((assocLookup [("u1", User.mk "u1" "Ann" "ann@x.com" 0 0)]
        (User.mk "u1" "Bob" "bob@x.com" 0 0).ID).isSome = true ∧
      mockCreate [("u1", User.mk "u1" "Ann" "ann@x.com" 0 0)]
          (User.mk "u1" "Bob" "bob@x.com" 0 0) =
        (some (.repo .alreadyExists), [("u1", User.mk "u1" "Ann" "ann@x.com" 0 0)])) ∧
    (assocLookup [("u1", User.mk "u1" "Ann" "ann@x.com" 0 0)] "u2" = none ∧
      mockDelete [("u1", User.mk "u1" "Ann" "ann@x.com" 0 0)] "u2" =
        (some (.repo .notFound), [("u1", User.mk "u1" "Ann" "ann@x.com" 0 0)])) :=
  ⟨⟨by decide,
    (mock_error_leaves_state [("u1", User.mk "u1" "Ann" "ann@x.com" 0 0)]
      (User.mk "u1" "Bob" "bob@x.com" 0 0) "u2").1 (by decide)⟩,
   ⟨by decide,
    (mock_error_leaves_state [("u1", User.mk "u1" "Ann" "ann@x.com" 0 0)]
      (User.mk "u1" "Bob" "bob@x.com" 0 0) "u2").2.2 (by decide)⟩⟩

/-- The `repository.UserRepository` capability set the service is built on:
any repository state type `σ` with the five methods. `getByID` is read-only,
as both implementations are. The service functions below additionally record
the sequence of repository invocations they perform, so that "does not invoke
Update/Delete" is a provable statement. -/
structure RepoOps (σ : Type) where
  getByID : σ → String → Option User × Option AppErr
  create : σ → User → Option AppErr × σ
  update : σ → User → Option AppErr × σ
  delete : σ → String → Option AppErr × σ

inductive RepoCall where
  | getByID (id : String)
  | create (id : String)
  | update (id : String)
  | delete (id : String)
  deriving DecidableEq, Repr

/-- The mock repository packaged as a `RepoOps`. -/
def mockRepo : RepoOps MockUsers :=
  ⟨mockGetByID, mockCreate, mockUpdate, mockDelete⟩

/-- `userService.GetByID`: reject an empty id, surface repository errors,
translate a nil user into `ErrUserNotFound`. -/
def svcGetByID {σ : Type} (R : RepoOps σ) (st : σ) (id : String) :
    Except AppErr User × List RepoCall :=
  if id = "" then (.error .invalidUser, [])
  else
    match R.getByID st id with
    | (_, some e) => (.error e, [.getByID id])
    | (none, none) => (.error .userNotFound, [.getByID id])
    | (some u, none) => (.ok u, [.getByID id])

/-- `userService.Update`: reject an empty ID, pre-check existence via
`GetByID`, and only then call the repository's `Update`. -/
def svcUpdate {σ : Type} (R : RepoOps σ) (st : σ) (u : User) :
    Option AppErr × σ × List RepoCall :=
  if u.ID = "" then (some .invalidUser, st, [])
  else
    match R.getByID st u.ID with
    | (_, some e) => (some e, st, [.getByID u.ID])
    | (none, none) => (some .userNotFound, st, [.getByID u.ID])
    | (some _, none) =>
        let r := R.update st u
        (r.1, r.2, [.getByID u.ID, .update u.ID])

/-- `userService.Delete`: same pre-check shape over the repository's
`Delete`. -/
def svcDelete {σ : Type} (R : RepoOps σ) (st : σ) (id : String) :
    Option AppErr × σ × List RepoCall :=
  if id = "" then (some .invalidUser, st, [])
  else
    match R.getByID st id with
    | (_, some e) => (some e, st, [.getByID id])
    | (none, none) => (some .userNotFound, st, [.getByID id])
    | (some _, none) =>
        let r := R.delete st id
        (r.1, r.2, [.getByID id, .delete id])

/-- C5: for every repository, the service's `Update` and `Delete` reject an
empty id with `ErrInvalidUser` before any repository call (empty trace), and
when the pre-check `GetByID` reports an absent entity they return
`ErrUserNotFound` with the state untouched and the trace holding only that
single `GetByID` call — in particular no `Update`/`Delete` invocation. -/
theorem service_existence_precheck {σ : Type} (R : RepoOps σ) (st : σ)
    (u : User) (id : String) :
    (u.ID = "" → svcUpdate R st u = (some .invalidUser, st, [])) ∧
    (id = "" → svcDelete R st id = (some .invalidUser, st, [])) ∧
    (u.ID ≠ "" → R.getByID st u.ID = (none, none) →
      svcUpdate R st u = (some .userNotFound, st, [.getByID u.ID])) ∧
    (id ≠ "" → R.getByID st id = (none, none) →
      svcDelete R st id = (some .userNotFound, st, [.getByID id])) := by
  refine ⟨?_, ?_, ?_, ?_⟩
  · intro h
    unfold svcUpdate
    rw [if_pos h]
  · intro h
    unfold svcDelete
    rw [if_pos h]
  · intro h hnil
    unfold svcUpdate
    rw [if_neg h, hnil]
  · intro h hnil
    unfold svcDelete
    rw [if_neg h, hnil]

/-- Witness for C5 over the mock repository: on an empty store, updating user
"u1" stops at the pre-check; an empty id never reaches the repository. -/
theorem service_existence_precheck_witness :
    ((User.mk "" "Ann" "ann@x.com" 0 0).ID = "" ∧
      svcUpdate mockRepo [] (User.mk "" "Ann" "ann@x.com" 0 0) =
        (some .invalidUser, [], [])) ∧
    ((User.mk "u1" "Ann" "ann@x.com" 0 0).ID ≠ "" ∧
      mockRepo.getByID [] (User.mk "u1" "Ann" "ann@x.com" 0 0).ID = (none, none) ∧
      svcUpdate mockRepo [] (User.mk "u1" "Ann" "ann@x.com" 0 0) =
        (some .userNotFound, [], [.getByID "u1"])) ∧
    ("u1" ≠ "" ∧
      svcDelete mockRepo [] "u1" = (some .userNotFound, [], [.getByID "u1"])) :=
  ⟨⟨rfl,
    (service_existence_precheck mockRepo [] (User.mk "" "Ann" "ann@x.com" 0 0) "u1").1 rfl⟩,
   ⟨by decide, rfl,
    (service_existence_precheck mockRepo [] (User.mk "u1" "Ann" "ann@x.com" 0 0) "u1").2.2.1
      (by decide) rfl⟩,
   ⟨by decide,
    (service_existence_precheck mockRepo [] (User.mk "u1" "Ann" "ann@x.com" 0 0) "u1").2.2.2
      (by decide) rfl⟩⟩

/-- `userDocument` (`internal/repository/user_repository.go`): the MongoDB
document for a user; `oid` is the `primitive.ObjectID` in canonical hex. -/
structure UserDoc where
  oid : String
  name : String
  email : String
  createdAt : Nat
  updatedAt : Nat
  deriving DecidableEq, Repr

def userDocId (d : UserDoc) : BsonId := .oid d.oid

/-- `toUser`: document → domain entity (`doc.ID.Hex()` is `d.oid`). -/
def toUser (d : UserDoc) : User :=
  ⟨d.oid, d.name, d.email, d.createdAt, d.updatedAt⟩

/-- `userRepositoryImpl.GetByID`: `FindByID`, with `ErrNotFound` translated
into `(nil, nil)` and every other error surfaced. -/
def implGetByID (docs : List UserDoc) (id : String) :
    Option User × Option AppErr :=
  match findByID userDocId docs id with
  | .ok d => (some (toUser d), none)
  | .error .notFound => (none, none)
  | .error e => (none, some (.repo e))

/-- C9 counterexample: the empty id matches no stored user and both
repositories return `(nil, nil)` for it, but the service's `GetByID` rejects
it with `ErrInvalidUser` before calling the repository, so the nil result is
not converted into `ErrUserNotFound` there. -/
theorem getByID_nil_contract_counterexample :
    mockGetByID [] "" = (none, none) ∧
    implGetByID [] "" = (none, none) ∧
    svcGetByID mockRepo [] "" = (.error .invalidUser, []) ∧
    AppErr.invalidUser ≠ AppErr.userNotFound :=
  ⟨rfl, rfl, rfl, by decide⟩

/-- C9 as amended: when an id matches no stored user, both the MongoDB-backed
and the mock `GetByID` return a nil user with a nil error, and for every
non-empty such id the service's `GetByID` converts that nil result into
`ErrUserNotFound` (the empty id is rejected earlier with `ErrInvalidUser`). -/
theorem getByID_nil_contract {σ : Type} (R : RepoOps σ) (st : σ)
    (docs : List UserDoc) (mst : MockUsers) (id : String) :
    ((∀ d ∈ docs, userDocId d ≠ idFilter id) → implGetByID docs id = (none, none)) ∧
    (assocLookup mst id = none → mockGetByID mst id = (none, none)) ∧
    (id ≠ "" → R.getByID st id = (none, none) →
      svcGetByID R st id = (.error .userNotFound, [.getByID id])) := by
  refine ⟨?_, ?_, ?_⟩
  · intro hall
    unfold implGetByID
    have hf : docs.find? (fun t => userDocId t == idFilter id) = none :=
      List.find?_eq_none.mpr fun t ht => by
        simpa using hall t ht
    unfold findByID
    rw [hf]
  · intro hn
    unfold mockGetByID
    rw [hn]
  · intro h hnil
    unfold svcGetByID
    rw [if_neg h, hnil]

/-- Witness for C9 (amended): id "u1" absent from a one-document collection
and from an empty mock store; the service converts the nil result. -/
theorem getByID_nil_contract_witness :
    ((∀ d ∈ [UserDoc.mk "aaaaaaaaaaaaaaaaaaaaaaaa" "Ann" "ann@x.com" 0 0],
        userDocId d ≠ idFilter "u1") ∧
      implGetByID [UserDoc.mk "aaaaaaaaaaaaaaaaaaaaaaaa" "Ann" "ann@x.com" 0 0] "u1" =
        (none, none)) ∧
    (assocLookup ([] : MockUsers) "u1" = none ∧
      mockGetByID [] "u1" = (none, none)) ∧
    ("u1" ≠ "" ∧
      svcGetByID mockRepo [] "u1" = (.error .userNotFound, [.getByID "u1"])) :=
  ⟨⟨by decide,
    (getByID_nil_contract mockRepo []
      [UserDoc.mk "aaaaaaaaaaaaaaaaaaaaaaaa" "Ann" "ann@x.com" 0 0] [] "u1").1
      (by decide)⟩,
   ⟨rfl,
    (getByID_nil_contract mockRepo []
      [UserDoc.mk "aaaaaaaaaaaaaaaaaaaaaaaa" "Ann" "ann@x.com" 0 0] [] "u1").2.1 rfl⟩,
   ⟨by decide,
    (getByID_nil_contract mockRepo []
      [UserDoc.mk "aaaaaaaaaaaaaaaaaaaaaaaa" "Ann" "ann@x.com" 0 0] [] "u1").2.2
      (by decide) rfl⟩⟩

/-! ### Pointer-level model of the mock repository (for C3)

`map[string]*domain.User` under the Go memory model: a heap of `User` values
addressed by `Nat` (allocation appends at the end), and the map binding ids
to addresses. `Create`/`Update` dereference the argument pointer and allocate
a fresh cell for the copy (`userCopy := *user; r.users[...] = &userCopy`),
while `GetByID`/`List` hand back the stored addresses themselves — the Go
code returns the stored `*domain.User` without copying. A caller mutating an
entity is a heap write at the entity's address. -/

abbrev Heap := List User

/-- Pointer dereference; claims only ever dereference live addresses. -/
def heapRead : Heap → Nat → User
  | [], _ => ⟨"", "", "", 0, 0⟩
  | x :: _, 0 => x
  | _ :: rest, n + 1 => heapRead rest n

/-- In-place mutation through a pointer. -/
def heapWrite : Heap → Nat → User → Heap
  | [], _, _ => []
  | _ :: rest, 0, v => v :: rest
  | x :: rest, n + 1, v => x :: heapWrite rest n v

structure PtrRepo where
  heap : Heap
  users : List (String × Nat)
  deriving DecidableEq, Repr

/-- `MockUserRepository.Create` over the heap: reject a present ID, else
store `&userCopy` — a fresh address holding a copy of `*user`
(`heapRead s.heap p` is the dereference `*user`). -/
def ptrCreate (s : PtrRepo) (p : Nat) : Option AppErr × PtrRepo :=
  match assocLookup s.users (heapRead s.heap p).ID with
  | some _ => (some (.repo .alreadyExists), s)
  | none =>
      (none, ⟨s.heap ++ [heapRead s.heap p],
              s.users ++ [((heapRead s.heap p).ID, s.heap.length)]⟩)

/-- `MockUserRepository.Update` over the heap: reject a missing ID, else
rebind it to a fresh copy of `*user`. -/
def ptrUpdate (s : PtrRepo) (p : Nat) : Option AppErr × PtrRepo :=
  match assocLookup s.users (heapRead s.heap p).ID with
  | none => (some (.repo .notFound), s)
  | some _ =>
      (none, ⟨s.heap ++ [heapRead s.heap p],
              assocSet s.users (heapRead s.heap p).ID s.heap.length⟩)

/-- `MockUserRepository.GetByID` over the heap: the stored pointer itself. -/
def ptrGetByID (s : PtrRepo) (id : String) : Option Nat :=
  assocLookup s.users id

/-- `MockUserRepository.List` over the heap: the stored pointers. -/
def ptrList (s : PtrRepo) : List Nat := s.users.map (·.2)

/-- A caller mutating the entity behind pointer `a`. -/
def ptrMutate (s : PtrRepo) (a : Nat) (v : User) : PtrRepo :=
  ⟨heapWrite s.heap a v, s.users⟩

/-- The entity value a caller observes when reading id through `GetByID`. -/
def observeGet (s : PtrRepo) (id : String) : Option User :=
  (ptrGetByID s id).map (heapRead s.heap)

theorem heapRead_write_ne (h : Heap) :
    ∀ (a b : Nat), a ≠ b → heapRead (heapWrite h a v) b = heapRead h b := by
  induction h with
  | nil => intro a b _; cases a <;> rfl
  | cons x rest ih =>
    intro a b hne
    cases a with
    | zero =>
      cases b with
      | zero => exact absurd rfl hne
      | succ m => rfl
    | succ n =>
      cases b with
      | zero => rfl
      | succ m =>
        show heapRead (heapWrite rest n v) m = heapRead rest m
        exact ih n m (fun hc => hne (by rw [hc]))

theorem heapRead_append_length (h : Heap) (u : User) :
    heapRead (h ++ [u]) h.length = u := by
  induction h with
  | nil => rfl
  | cons x rest ih => exact ih

theorem heapWrite_length (h : Heap) :
    ∀ (a : Nat) (v : User), (heapWrite h a v).length = h.length := by
  induction h with
  | nil => intro a v; cases a <;> rfl
  | cons x rest ih =>
    intro a v
    cases a with
    | zero => rfl
    | succ n =>
      show (heapWrite rest n v).length + 1 = rest.length + 1
      rw [ih n v]

theorem heapWrite_append_left (h : Heap) (l : Heap) :
    ∀ (a : Nat), a < h.length → heapWrite (h ++ l) a v = heapWrite h a v ++ l := by
  induction h with
  | nil => intro a ha; cases ha
  | cons x rest ih =>
    intro a ha
    cases a with
    | zero => rfl
    | succ n =>
      show x :: heapWrite (rest ++ l) n v = (x :: heapWrite rest n v) ++ l
      rw [List.cons_append, ih n (Nat.lt_of_succ_lt_succ ha)]

theorem heapRead_write_self (h : Heap) :
    ∀ (a : Nat), a < h.length → heapRead (heapWrite h a v) a = v := by
  induction h with
  | nil => intro a ha; cases ha
  | cons x rest ih =>
    intro a ha
    cases a with
    | zero => rfl
    | succ n => exact ih n (Nat.lt_of_succ_lt_succ ha)

theorem assocLookup_singleton_self {α : Type} (k : String) (v : α) :
    assocLookup [(k, v)] k = some v := by
  unfold assocLookup
  rw [if_pos rfl]

theorem assocLookup_append_right {α : Type} (m₁ m₂ : List (String × α)) (k : String)
    (h : assocLookup m₁ k = none) :
    assocLookup (m₁ ++ m₂) k = assocLookup m₂ k := by
  induction m₁ with
  | nil => rfl
  | cons kv rest ih =>
    rw [List.cons_append]
    show (if kv.1 = k then some kv.2 else assocLookup (rest ++ m₂) k) = _
    have h' : (if kv.1 = k then some kv.2 else assocLookup rest k) = none := h
    by_cases hk : kv.1 = k
    · rw [if_pos hk] at h'; cases h'
    · rw [if_neg hk] at h'
      rw [if_neg hk]
      exact ih h'

theorem assocLookup_map_set_self {α : Type} (k : String) (v : α) :
    ∀ (m : List (String × α)), m.any (fun kv => kv.1 == k) = true →
      assocLookup (m.map (fun kv => if kv.1 = k then (k, v) else kv)) k = some v := by
  intro m
  induction m with
  | nil => intro hin; simp at hin
  | cons kv rest ih =>
    intro hin
    rw [List.map_cons]
    by_cases hk : kv.1 = k
    · rw [if_pos hk]
      show (if k = k then some v
        else assocLookup (rest.map (fun kv => if kv.1 = k then (k, v) else kv)) k) = some v
      rw [if_pos rfl]
    · rw [if_neg hk]
      show (if kv.1 = k then some kv.2
        else assocLookup (rest.map (fun kv => if kv.1 = k then (k, v) else kv)) k) = some v
      rw [if_neg hk]
      refine ih ?_
      rcases List.any_eq_true.mp hin with ⟨u, hu, hub⟩
      rcases List.mem_cons.mp hu with h' | h'
      · subst h'
        exact absurd (by simpa using hub) hk
      · exact List.any_eq_true.mpr ⟨u, h', hub⟩

theorem assocLookup_none_of_no_key {α : Type} (k : String) :
    ∀ (m : List (String × α)), ¬ (m.any (fun kv => kv.1 == k) = true) →
      assocLookup m k = none := by
  intro m
  induction m with
  | nil => intro _; rfl
  | cons kv rest ih =>
    intro hin
    show (if kv.1 = k then some kv.2 else assocLookup rest k) = none
    by_cases hk : kv.1 = k
    · exact absurd (List.any_eq_true.mpr ⟨kv, List.mem_cons_self kv rest, by simp [hk]⟩) hin
    · rw [if_neg hk]
      refine ih fun hc => hin ?_
      rcases List.any_eq_true.mp hc with ⟨u, hu, hub⟩
      exact List.any_eq_true.mpr ⟨u, List.mem_cons_of_mem kv hu, hub⟩

theorem assocLookup_set_self {α : Type} (m : List (String × α)) (k : String) (v : α) :
    assocLookup (assocSet m k v) k = some v := by
  unfold assocSet
  by_cases hin : m.any (fun kv => kv.1 == k) = true
  · rw [if_pos hin]
    exact assocLookup_map_set_self k v m hin
  · rw [if_neg hin]
    rw [assocLookup_append_right m [(k, v)] k (assocLookup_none_of_no_key k m hin)]
    exact assocLookup_singleton_self k v

/-- C3 counterexample: create user "u1" from a caller-owned cell; `GetByID`
returns the repository's own cell (address 1), and the caller writing through
that returned pointer changes what a later `GetByID` observes — so read-out
is not a copy. -/
theorem mock_copy_counterexample :
    (ptrCreate ⟨[⟨"u1", "Ann", "ann@x.com", 0, 0⟩], []⟩ 0).1 = none ∧
    ptrGetByID (ptrCreate ⟨[⟨"u1", "Ann", "ann@x.com", 0, 0⟩], []⟩ 0).2 "u1" = some 1 ∧
    observeGet (ptrCreate ⟨[⟨"u1", "Ann", "ann@x.com", 0, 0⟩], []⟩ 0).2 "u1" =
      some ⟨"u1", "Ann", "ann@x.com", 0, 0⟩ ∧
    observeGet
      (ptrMutate (ptrCreate ⟨[⟨"u1", "Ann", "ann@x.com", 0, 0⟩], []⟩ 0).2 1
        ⟨"u1", "Mallory", "ann@x.com", 0, 0⟩) "u1" =
      some ⟨"u1", "Mallory", "ann@x.com", 0, 0⟩ ∧
    (⟨"u1", "Mallory", "ann@x.com", 0, 0⟩ : User) ≠ ⟨"u1", "Ann", "ann@x.com", 0, 0⟩ :=
  ⟨rfl, rfl, rfl, rfl, by decide⟩

/-- C3 as amended: `Create` and `Update` store a copy of the entity passed in
— mutating the caller's entity after the call does not change what `GetByID`
observes — but `GetByID` (and `List`) return the stored pointers themselves,
so a caller mutation through a returned pointer does change the stored
entity: writing `v` through the pointer `GetByID` returned makes every later
read of that id observe `v`. -/
theorem mock_copy_on_write_only (s : PtrRepo) (p : Nat) (v : User)
    (hp : p < s.heap.length) :
    ((ptrCreate s p).1 = none →
      observeGet (ptrMutate (ptrCreate s p).2 p v) (heapRead s.heap p).ID =
        some (heapRead s.heap p)) ∧
    ((ptrUpdate s p).1 = none →
      observeGet (ptrMutate (ptrUpdate s p).2 p v) (heapRead s.heap p).ID =
        some (heapRead s.heap p)) ∧
    (∀ id a, ptrGetByID s id = some a → a < s.heap.length →
      observeGet (ptrMutate s a v) id = some v) := by
  have hread : heapRead (heapWrite (s.heap ++ [heapRead s.heap p]) p v)
      s.heap.length = heapRead s.heap p := by
    rw [heapWrite_append_left s.heap [heapRead s.heap p] p hp]
    rw [show s.heap.length = (heapWrite s.heap p v).length from
      (heapWrite_length s.heap p v).symm]
    rw [heapRead_append_length]
  refine ⟨?_, ?_, ?_⟩
  · intro hok
    unfold ptrCreate at hok ⊢
    cases hl : assocLookup s.users (heapRead s.heap p).ID with
    | some q => rw [hl] at hok; cases hok
    | none =>
      unfold ptrMutate observeGet ptrGetByID
      show Option.map (heapRead (heapWrite (s.heap ++ [heapRead s.heap p]) p v))
        (assocLookup (s.users ++ [((heapRead s.heap p).ID, s.heap.length)])
          (heapRead s.heap p).ID) = _
      rw [assocLookup_append_right s.users _ _ hl, assocLookup_singleton_self]
      show some (heapRead (heapWrite (s.heap ++ [heapRead s.heap p]) p v)
        s.heap.length) = _
      rw [hread]
  · intro hok
    unfold ptrUpdate at hok ⊢
    cases hl : assocLookup s.users (heapRead s.heap p).ID with
    | none => rw [hl] at hok; cases hok
    | some q =>
      unfold ptrMutate observeGet ptrGetByID
      show Option.map (heapRead (heapWrite (s.heap ++ [heapRead s.heap p]) p v))
        (assocLookup (assocSet s.users (heapRead s.heap p).ID s.heap.length)
          (heapRead s.heap p).ID) = _
      rw [assocLookup_set_self]
      show some (heapRead (heapWrite (s.heap ++ [heapRead s.heap p]) p v)
        s.heap.length) = _
      rw [hread]
  · intro id a hget ha
    unfold ptrGetByID at hget
    unfold ptrMutate observeGet ptrGetByID
    show Option.map (heapRead (heapWrite s.heap a v)) (assocLookup s.users id) = some v
    rw [hget]
    show some (heapRead (heapWrite s.heap a v) a) = some v
    rw [heapRead_write_self s.heap a ha]

/-- Witness for C3 (amended): a caller creating "u1" from its own cell 0 and
then overwriting that cell does not affect the repository; a caller writing
through the pointer `GetByID` returned does. -/
theorem mock_copy_on_write_only_witness :
    ((ptrCreate ⟨[⟨"u1", "Ann", "ann@x.com", 0, 0⟩], []⟩ 0).1 = none ∧
      observeGet
        (ptrMutate (ptrCreate ⟨[⟨"u1", "Ann", "ann@x.com", 0, 0⟩], []⟩ 0).2 0
          ⟨"u1", "Mallory", "ann@x.com", 0, 0⟩)
        (heapRead [⟨"u1", "Ann", "ann@x.com", 0, 0⟩] 0).ID =
        some (heapRead [⟨"u1", "Ann", "ann@x.com", 0, 0⟩] 0)) ∧
    (ptrGetByID ⟨[⟨"u1", "Ann", "ann@x.com", 0, 0⟩], [("u1", 0)]⟩ "u1" = some 0 ∧
      observeGet
        (ptrMutate ⟨[⟨"u1", "Ann", "ann@x.com", 0, 0⟩], [("u1", 0)]⟩ 0
          ⟨"u1", "Mallory", "ann@x.com", 0, 0⟩) "u1" =
        some ⟨"u1", "Mallory", "ann@x.com", 0, 0⟩) :=
  ⟨⟨rfl,
    (mock_copy_on_write_only ⟨[⟨"u1", "Ann", "ann@x.com", 0, 0⟩], []⟩ 0
      ⟨"u1", "Mallory", "ann@x.com", 0, 0⟩ (by decide)).1 rfl⟩,
   ⟨rfl,
    (mock_copy_on_write_only ⟨[⟨"u1", "Ann", "ann@x.com", 0, 0⟩], [("u1", 0)]⟩ 0
      ⟨"u1", "Mallory", "ann@x.com", 0, 0⟩ (by decide)).2.2 "u1" 0 rfl (by decide)⟩⟩

/-! ### Resource `Close` behaviour (`internal/resources/db.go`, mocks)

The mock resources hold only a `connected` flag; their `Close` writes
`false` and returns `nil` unconditionally. The MongoDB-backed `DB` keeps
`d.client`, set by `Connect` and never cleared; `Close` returns `nil` when
`d.client == nil` and otherwise returns `d.client.Disconnect(ctx)`. -/

structure MockDB where
  connected : Bool
  deriving DecidableEq, Repr

/-- `MockDB.Close`. -/
def MockDB.close (_ : MockDB) : Option String × MockDB :=
  (none, ⟨false⟩)

structure MockRedis where
  connected : Bool
  deriving DecidableEq, Repr

/-- `MockRedis.Close`. -/
def MockRedis.close (_ : MockRedis) : Option String × MockRedis :=
  (none, ⟨false⟩)

/-- The driver-side client handle held in `DB.client`. -/
structure MongoClient where
  connected : Bool
  deriving DecidableEq, Repr

/-- Modelled from the spec: the MongoDB driver (an external collaborator the
spec places out of scope) is the code `DB.Close` delegates to once a client
exists; per the driver's documented contract, `Client.Disconnect` succeeds on
a connected client and returns a "client is disconnected" error when called
on an already-disconnected client. -/
def mongoDisconnect (c : MongoClient) : Option String × MongoClient :=
  if c.connected then (none, ⟨false⟩) else (some "client is disconnected", c)

/-- `DB`: the MongoDB-backed resource; `client` is nil until `Connect`. -/
structure DB where
  client : Option MongoClient
  deriving DecidableEq, Repr

/-- The state after a successful `DB.Connect`: `d.client = client`. -/
def DB.connected (_ : DB) : DB := ⟨some ⟨true⟩⟩

/-- `DB.Close`: `nil` when no client was ever set, otherwise the result of
`d.client.Disconnect(ctx)`; the client handle is kept, not cleared. -/
def DB.close (d : DB) : Option String × DB :=
  match d.client with
  | none => (none, d)
  | some c =>
      ((mongoDisconnect c).1, ⟨some (mongoDisconnect c).2⟩)

/-- C8 counterexample: for the MongoDB-backed `DB`, the first `Close` after a
successful `Connect` returns `nil`, but `Close` does not clear `d.client`, so
a second `Close` re-invokes the driver's `Disconnect` on the now-disconnected
client and returns its error, not `nil`. -/
theorem close_idempotent_counterexample :
    (DB.close (DB.connected ⟨none⟩)).1 = none ∧
    (DB.close (DB.close (DB.connected ⟨none⟩)).2).1 = some "client is disconnected" ∧
    some "client is disconnected" ≠ (none : Option String) :=
  ⟨rfl, rfl, by decide⟩

/-- C8 as amended: the mock DB and Redis resources' `Close` returns `nil`
unconditionally — never-connected and already-closed states included — and
the MongoDB-backed `DB.Close` returns `nil` whenever `Connect` was never
called (`client` still nil); but once a client exists, `Close` returns
whatever the driver's `Disconnect` returns, so after a completed `Close` a
second `Close` surfaces the driver's already-disconnected error instead of
`nil`. -/
theorem close_idempotent_amended (db : MockDB) (rd : MockRedis) (d : DB) :
    MockDB.close db = (none, ⟨false⟩) ∧
    MockRedis.close rd = (none, ⟨false⟩) ∧
    (d.client = none → DB.close d = (none, d)) ∧
    (∀ c, d.client = some c → (DB.close d).1 = (mongoDisconnect c).1) ∧
    ((DB.close (DB.connected d)).1 = none ∧
      (DB.close (DB.close (DB.connected d)).2).1 = some "client is disconnected") := by
  refine ⟨rfl, rfl, ?_, ?_, rfl, rfl⟩
  · intro hnil
    unfold DB.close
    rw [hnil]
  · intro c hc
    unfold DB.close
    rw [hc]

/-- Witness for C8 (amended): the never-connected `DB` and a connected
client. -/
theorem close_idempotent_amended_witness :
    ((DB.mk none).client = none ∧ DB.close ⟨none⟩ = (none, ⟨none⟩)) ∧
    ((DB.mk (some ⟨true⟩)).client = some ⟨true⟩ ∧
      (DB.close ⟨some ⟨true⟩⟩).1 = (mongoDisconnect ⟨true⟩).1) :=
  ⟨⟨rfl,
    (close_idempotent_amended ⟨true⟩ ⟨true⟩ ⟨none⟩).2.2.1 rfl⟩,
   ⟨rfl,
    (close_idempotent_amended ⟨true⟩ ⟨true⟩ ⟨some ⟨true⟩⟩).2.2.2.1 ⟨true⟩ rfl⟩⟩

end Stride
